import Mathlib

/-!
Shallow embedding of the 1v1 coding-platform backend
(`src/main.py`, `src/schemas.py`).

The persistent document store (module `database`, not present under
`src/`) is modelled from the spec as lists of typed documents inside a
`DB` record; `create_document` stamps a creation timestamp on the
inserted document and Mongo `_id`s are modelled as `Nat` identifiers on
waiting-queue documents (the only collection the code addresses by
`_id`).  Randomness (`_gen_room_id`, `$sample`) is modelled by passing
the drawn value / index as an explicit parameter.
-/

namespace Spec2Proof

/-- `schemas.Question`: a static catalog entry; `examples` are
input/output pairs. -/
structure Question where
  title : String
  slug : String
  difficulty : String
  tags : List String
  statement : String
  examples : List (String × String)
deriving Repr, DecidableEq

/-- `schemas.Room` as persisted: `created_at` is stamped at insertion
time by the store. -/
structure Room where
  room_id : String
  participants : List String
  question_slug : Option String
  editor_content : String
  created_at : Option Nat
deriving Repr, DecidableEq

/-- `schemas.Message` as persisted: `created_at` is stamped at insertion
time by the store (the spec orders retrieval by it). -/
structure Message where
  room_id : String
  sender : String
  content : String
  type : String
  created_at : Nat
deriving Repr, DecidableEq

/-- `schemas.Match` as persisted: one waiting-queue document.  `id`
models the Mongo `_id` (the code deletes by it); `enqueued_at` is the
creation timestamp stamped by the store. -/
structure MatchDoc where
  id : Nat
  name : String
  status : String
  room_id : Option String
  enqueued_at : Nat
deriving Repr, DecidableEq

/-- Modelled from the spec: the external Document Store (`database.db`,
not under `src/`), one list per collection used by `main.py`
(`question`, `room`, `message`, `match`), inserts appending in order;
`nextId` supplies fresh `_id`s for the waiting queue. -/
structure DB where
  question : List Question
  room : List Room
  message : List Message
  matchCol : List MatchDoc
  nextId : Nat
deriving Repr, DecidableEq

/-- `fastapi.HTTPException` payload: status code and detail string. -/
structure HTTPError where
  status : Nat
  detail : String
deriving Repr, DecidableEq

/-- The body returned by `matchmaking_join`. -/
inductive JoinResult where
  | waiting
  | paired (room_id : String)
deriving Repr, DecidableEq

/-- Leading and trailing whitespace removed from a character list. -/
def stripChars (l : List Char) : List Char :=
  ((l.dropWhile Char.isWhitespace).reverse.dropWhile Char.isWhitespace).reverse

/-- Python's `str.strip()` with no argument: the string with leading
and trailing whitespace removed. -/
def pyStrip (s : String) : String := ⟨stripChars s.data⟩

/-- `match_col.find_one({"status": "waiting"})`: the first stored
waiting-queue document whose status is `waiting`. -/
def findWaiting (ms : List MatchDoc) : Option MatchDoc :=
  ms.find? (fun m => m.status == "waiting")

/-- `match_col.delete_one({"_id": i})`: removes the first document with
that `_id` (at most one). -/
def deleteOneById (ms : List MatchDoc) (i : Nat) : List MatchDoc :=
  match ms with
  | [] => []
  | m :: rest => if m.id = i then rest else m :: deleteOneById rest i

/-- `q_col.aggregate([{"$sample": {"size": 1}}])` followed by
`next(qdoc, None)`: one catalog document drawn at random (the draw
`pick` is an explicit parameter), `none` on an empty catalog. -/
def sampleQuestion (qs : List Question) (pick : Nat) : Option Question :=
  qs.get? (pick % qs.length)

/-- The per-request data of one `matchmaking_join` invocation: the raw
payload name, the drawn room id (`_gen_room_id()`), the catalog sample
draw, and the wall-clock instant stamped on created documents. -/
structure JoinCtx where
  name : String
  roomId : String
  qpick : Nat
  now : Nat
deriving Repr, DecidableEq

/-- `POST /api/matchmaking/join` (`matchmaking_join` in `main.py`),
run to completion in isolation. -/
def matchmaking_join (c : JoinCtx) (db : DB) :
    Except HTTPError JoinResult × DB :=
  let name := pyStrip c.name
  if name = "" then (.error ⟨400, "Name is required"⟩, db)
  else
    match findWaiting db.matchCol with
    | none =>
        let entry : MatchDoc :=
          { id := db.nextId, name := name, status := "waiting",
            room_id := none, enqueued_at := c.now }
        (.ok .waiting,
         { db with matchCol := db.matchCol ++ [entry], nextId := db.nextId + 1 })
    | some other =>
        let slug := (sampleQuestion db.question c.qpick).map (·.slug)
        let room : Room :=
          { room_id := c.roomId, participants := [other.name, name],
            question_slug := slug, editor_content := "",
            created_at := some c.now }
        let msg : Message :=
          { room_id := c.roomId, sender := "system",
            content := "Match found!", type := "system", created_at := c.now }
        (.ok (.paired c.roomId),
         { db with room := db.room ++ [room],
                   matchCol := deleteOneById db.matchCol other.id,
                   message := db.message ++ [msg] })

/-- `col.find_one({"room_id": rid})` on the `room` collection. -/
def findRoom (rs : List Room) (rid : String) : Option Room :=
  rs.find? (fun r => r.room_id == rid)

/-- `col.update_one({"room_id": rid}, {"$set": {"editor_content": c}})`:
replaces `editor_content` of the first matching room; also returns the
matched count (0 or 1). -/
def updateFirstRoom (rs : List Room) (rid : String) (content : String) :
    List Room × Nat :=
  match rs with
  | [] => ([], 0)
  | r :: rest =>
      if r.room_id == rid then ({ r with editor_content := content } :: rest, 1)
      else
        let p := updateFirstRoom rest rid content
        (r :: p.1, p.2)

/-- `PUT /api/room/{room_id}/editor` (`update_editor` in `main.py`). -/
def update_editor (room_id : String) (content : String) (db : DB) :
    Except HTTPError DB :=
  let p := updateFirstRoom db.room room_id content
  if p.2 = 0 then .error ⟨404, "Room not found"⟩
  else .ok { db with room := p.1 }

/-- `POST /api/room/{room_id}/messages` (`send_message` in `main.py`). -/
def send_message (room_id sender content : String) (now : Nat) (db : DB) :
    Except HTTPError DB :=
  match findRoom db.room room_id with
  | none => .error ⟨404, "Room not found"⟩
  | some _ =>
      .ok { db with message := db.message ++
              [({ room_id := room_id, sender := sender, content := content,
                  type := "chat", created_at := now } : Message)] }

/-- Ordering of stored messages by their `created_at` stamp. -/
def msgLE (a b : Message) : Prop := a.created_at ≤ b.created_at

instance : DecidableRel msgLE := fun _ _ => Nat.decLe _ _

instance : IsTotal Message msgLE := ⟨fun _ _ => Nat.le_total _ _⟩

instance : IsTrans Message msgLE := ⟨fun _ _ _ h h' => Nat.le_trans h h'⟩

/-- `GET /api/room/{room_id}/messages` (`get_messages` in `main.py`):
filter by room, sort ascending by `created_at`, truncate to `limit`
(50 by default at the HTTP layer). -/
def get_messages (room_id : String) (limit : Nat) (db : DB) : List Message :=
  ((db.message.filter (fun m => m.room_id == room_id)).insertionSort
    msgLE).take limit

/-- The three catalog samples hard-coded in `seed_questions`. -/
def seedSamples : List Question :=
  [ { title := "Two Sum", slug := "two-sum", difficulty := "Easy",
      tags := ["array", "hashmap"],
      statement :=
        "Given an array of integers nums and an integer target, return indices of the two numbers such that they add up to target.",
      examples := [("nums=[2,7,11,15], target=9", "[0,1]")] },
    { title := "Valid Parentheses", slug := "valid-parentheses",
      difficulty := "Easy", tags := ["stack", "string"],
      statement :=
        "Given a string s containing only the characters of brackets, determine if the input string is valid.",
      examples := [("s=()[]\x7b\x7d", "true")] },
    { title := "Longest Substring Without Repeating Characters",
      slug := "longest-substring", difficulty := "Medium",
      tags := ["hashmap", "sliding-window"],
      statement :=
        "Given a string s, find the length of the longest substring without repeating characters.",
      examples := [("abcabcbb", "3")] } ]

/-- `POST /api/seed-questions` (`seed_questions` in `main.py`): result
is `(seeded, count)` — the false branch carries no count. -/
def seed_questions (db : DB) : (Bool × Option Nat) × DB :=
  if db.question.length > 0 then ((false, none), db)
  else ((true, some seedSamples.length),
        { db with question := db.question ++ seedSamples })

/-!
Interleaving semantics for `matchmaking_join`.  The handler performs a
sequence of store round-trips (`find_one`, `create_document`,
`delete_one`), each individually atomic per the spec's store model, with
no atomicity across them.  A phase names the next pending store
operation of one in-flight request.
-/

/-- The control point of one in-flight `matchmaking_join` request. -/
inductive JoinPhase where
  | start
  | insertWaiting
  | createRoom (other : MatchDoc)
  | deleteEntry (other : MatchDoc)
  | createMsg
  | done (res : Except HTTPError JoinResult)
deriving Repr

/-- One atomic store round-trip of `matchmaking_join`: executes the
operation named by the phase against the current store and moves to the
next control point. -/
def joinStep (c : JoinCtx) (ph : JoinPhase) (db : DB) : JoinPhase × DB :=
  match ph with
  | .start =>
      let name := pyStrip c.name
      if name = "" then (.done (.error ⟨400, "Name is required"⟩), db)
      else
        match findWaiting db.matchCol with
        | none => (.insertWaiting, db)
        | some other => (.createRoom other, db)
  | .insertWaiting =>
      let entry : MatchDoc :=
        { id := db.nextId, name := pyStrip c.name, status := "waiting",
          room_id := none, enqueued_at := c.now }
      (.done (.ok .waiting),
       { db with matchCol := db.matchCol ++ [entry], nextId := db.nextId + 1 })
  | .createRoom other =>
      let slug := (sampleQuestion db.question c.qpick).map (·.slug)
      let room : Room :=
        { room_id := c.roomId, participants := [other.name, pyStrip c.name],
          question_slug := slug, editor_content := "",
          created_at := some c.now }
      (.deleteEntry other, { db with room := db.room ++ [room] })
  | .deleteEntry other =>
      (.createMsg, { db with matchCol := deleteOneById db.matchCol other.id })
  | .createMsg =>
      let msg : Message :=
        { room_id := c.roomId, sender := "system",
          content := "Match found!", type := "system", created_at := c.now }
      (.done (.ok (.paired c.roomId)), { db with message := db.message ++ [msg] })
  | .done r => (.done r, db)

/-- One in-flight `matchmaking_join` request: its per-request data and
its control point. -/
structure Thread where
  ctx : JoinCtx
  ph : JoinPhase
deriving Repr

/-- Let thread `i` perform its next atomic store round-trip (a no-op if
`i` is out of range). -/
def schedStep (ts : List Thread) (db : DB) (i : Nat) : List Thread × DB :=
  match ts.get? i with
  | none => (ts, db)
  | some t =>
      let p := joinStep t.ctx t.ph db
      (ts.set i { t with ph := p.1 }, p.2)

/-- Run a schedule: at each instant the named thread performs one atomic
store round-trip.  This ranges over all interleavings of the concurrent
`join` requests. -/
def runSched : List Nat → List Thread → DB → List Thread × DB
  | [], ts, db => (ts, db)
  | i :: rest, ts, db =>
      let p := schedStep ts db i
      runSched rest p.1 p.2

/-- A room with its shared editor text blanked, for stating that an
operation touches nothing but `editor_content`. -/
def eraseEditor (r : Room) : Room := { r with editor_content := "" }

/-! ### Helper lemmas -/

theorem findWaiting_mem {ms : List MatchDoc} {m : MatchDoc}
    (h : findWaiting ms = some m) : m ∈ ms :=
  List.mem_of_find?_eq_some h

theorem findWaiting_status {ms : List MatchDoc} {m : MatchDoc}
    (h : findWaiting ms = some m) : m.status = "waiting" := by
  have := List.find?_some h
  simpa using this

theorem deleteOneById_length {ms : List MatchDoc} {m : MatchDoc}
    (hm : m ∈ ms) : (deleteOneById ms m.id).length + 1 = ms.length := by
  induction ms with
  | nil => cases hm
  | cons a rest ih =>
      rcases List.mem_cons.mp hm with h | h
      · subst h
        simp [deleteOneById]
      · by_cases ha : a.id = m.id
        · simp [deleteOneById, ha]
        · simp only [deleteOneById, if_neg ha, List.length_cons]
          rw [ih h]

/-! ### Claim theorems -/

/-- C6: a join whose payload name is empty after trimming fails with
HTTP 400 ("Name is required") and leaves the store untouched: no
WaitingEntry, Room or Message is created or deleted. -/
theorem join_rejects_empty_name (c : JoinCtx) (db : DB)
    (h : pyStrip c.name = "") :
    matchmaking_join c db = (.error ⟨400, "Name is required"⟩, db) := by
  simp [matchmaking_join, h]

/-- C6 witness: joining with a whitespace-only name on a concrete store
returns the 400 error and the unchanged store. -/
theorem join_rejects_empty_name_witness :
    pyStrip "   " = "" ∧
    matchmaking_join ⟨"   ", "ABC123", 0, 7⟩
        ⟨[], [], [], [⟨0, "Alice", "waiting", none, 0⟩], 1⟩ =
      (.error ⟨400, "Name is required"⟩,
       ⟨[], [], [], [⟨0, "Alice", "waiting", none, 0⟩], 1⟩) :=
  ⟨by decide,
   join_rejects_empty_name ⟨"   ", "ABC123", 0, 7⟩
     ⟨[], [], [], [⟨0, "Alice", "waiting", none, 0⟩], 1⟩ (by decide)⟩

/-- C4: a join with a non-empty trimmed name, in a store holding no
waiting entry, appends exactly one new waiting-queue document for that
name with status `waiting` and the current instant as its enqueue
stamp, creates no Room and no Message, and returns `waiting`. -/
theorem join_enqueues_when_no_waiting_entry (c : JoinCtx) (db : DB)
    (hname : pyStrip c.name ≠ "")
    (hfind : findWaiting db.matchCol = none) :
    matchmaking_join c db =
      (.ok .waiting,
       { db with
           matchCol := db.matchCol ++
             [{ id := db.nextId, name := pyStrip c.name, status := "waiting",
                room_id := none, enqueued_at := c.now }],
           nextId := db.nextId + 1 }) ∧
    (matchmaking_join c db).2.room = db.room ∧
    (matchmaking_join c db).2.message = db.message := by
  refine ⟨?_, ?_, ?_⟩ <;> simp [matchmaking_join, hfind, if_neg hname]

/-- C4 witness: joining an empty queue with name " Bob " enqueues Bob
and returns `waiting`. -/
theorem join_enqueues_when_no_waiting_entry_witness :
    pyStrip " Bob " ≠ "" ∧ findWaiting ([] : List MatchDoc) = none ∧
    matchmaking_join ⟨" Bob ", "ABC123", 0, 7⟩ ⟨[], [], [], [], 5⟩ =
      (.ok .waiting,
       ⟨[], [], [], [⟨5, "Bob", "waiting", none, 7⟩], 6⟩) :=
  ⟨by decide, by decide,
   ((join_enqueues_when_no_waiting_entry ⟨" Bob ", "ABC123", 0, 7⟩
      ⟨[], [], [], [], 5⟩ (by decide) (by decide)).1)⟩

/-- C3: a join with a non-empty trimmed name, in a store whose waiting
queue holds a waiting entry `other`, creates exactly one Room with
participants `[other.name, name]`, the sampled catalog slug (`none` on
an empty catalog, a catalog member's slug otherwise) and empty editor
content; deletes `other`'s waiting entry (the queue shrinks by one);
appends a single system "Match found!" message for the new room; and
returns `paired` with the new room's id. -/
theorem join_pairs_with_waiting_entry (c : JoinCtx) (db : DB)
    (other : MatchDoc)
    (hname : pyStrip c.name ≠ "")
    (hfind : findWaiting db.matchCol = some other) :
    matchmaking_join c db =
      (.ok (.paired c.roomId),
       { db with
           room := db.room ++
             [{ room_id := c.roomId,
                participants := [other.name, pyStrip c.name],
                question_slug := (sampleQuestion db.question c.qpick).map (·.slug),
                editor_content := "", created_at := some c.now }],
           matchCol := deleteOneById db.matchCol other.id,
           message := db.message ++
             [{ room_id := c.roomId, sender := "system",
                content := "Match found!", type := "system",
                created_at := c.now }] }) ∧
    other.status = "waiting" ∧
    (deleteOneById db.matchCol other.id).length + 1 = db.matchCol.length ∧
    (db.question = [] → (sampleQuestion db.question c.qpick).map (·.slug) = none) ∧
    (db.question ≠ [] → ∃ q ∈ db.question,
      (sampleQuestion db.question c.qpick).map (·.slug) = some q.slug) := by
  refine ⟨?_, findWaiting_status hfind,
          deleteOneById_length (findWaiting_mem hfind), ?_, ?_⟩
  · simp [matchmaking_join, hfind, if_neg hname]
  · intro hq
    simp [sampleQuestion, hq]
  · intro hq
    rcases hq' : sampleQuestion db.question c.qpick with _ | q
    · exfalso
      have : db.question.length ≠ 0 := fun h => hq (List.length_eq_zero.mp h)
      have hlt : c.qpick % db.question.length < db.question.length :=
        Nat.mod_lt _ (Nat.pos_of_ne_zero this)
      rw [sampleQuestion, List.get?_eq_none] at hq'
      omega
    · exact ⟨q, List.get?_mem hq', by simp⟩

/-- C3 witness: Bob joining while Alice waits, with a one-question
catalog, creates the room `["Alice", "Bob"]` with that question's slug,
empties the queue and appends the system message. -/
theorem join_pairs_with_waiting_entry_witness :
    pyStrip "Bob" ≠ "" ∧
    findWaiting [⟨0, "Alice", "waiting", none, 0⟩] =
      some ⟨0, "Alice", "waiting", none, 0⟩ ∧
    matchmaking_join ⟨"Bob", "XK24QA", 0, 9⟩
        ⟨[⟨"Two Sum", "two-sum", "Easy", ["array"], "stmt", []⟩],
         [], [], [⟨0, "Alice", "waiting", none, 0⟩], 1⟩ =
      (.ok (.paired "XK24QA"),
       ⟨[⟨"Two Sum", "two-sum", "Easy", ["array"], "stmt", []⟩],
        [⟨"XK24QA", ["Alice", "Bob"], some "two-sum", "", some 9⟩],
        [⟨"XK24QA", "system", "Match found!", "system", 9⟩],
        [], 1⟩) :=
  ⟨by decide, by decide,
   (join_pairs_with_waiting_entry ⟨"Bob", "XK24QA", 0, 9⟩
      ⟨[⟨"Two Sum", "two-sum", "Easy", ["array"], "stmt", []⟩],
       [], [], [⟨0, "Alice", "waiting", none, 0⟩], 1⟩
      ⟨0, "Alice", "waiting", none, 0⟩ (by decide) (by decide)).1⟩

/-- C10: `matchmaking_join` never compares the joiner's name against
the waiting entry's name: when the waiting entry found carries the same
name as the (trimmed, non-empty) joiner, the call still pairs them,
creating a Room whose two participants are that one name twice. -/
theorem join_self_pairing (c : JoinCtx) (db : DB) (other : MatchDoc)
    (hfind : findWaiting db.matchCol = some other)
    (hname : pyStrip c.name = other.name)
    (hne : other.name ≠ "") :
    (matchmaking_join c db).1 = .ok (.paired c.roomId) ∧
    ∃ r ∈ (matchmaking_join c db).2.room,
      r.room_id = c.roomId ∧ r.participants = [other.name, other.name] := by
  have hname' : pyStrip c.name ≠ "" := by rw [hname]; exact hne
  constructor
  · simp [matchmaking_join, hfind, if_neg hname']
  · refine ⟨{ room_id := c.roomId,
              participants := [other.name, pyStrip c.name],
              question_slug := (sampleQuestion db.question c.qpick).map (·.slug),
              editor_content := "", created_at := some c.now }, ?_, rfl, by
                rw [hname]⟩
    simp [matchmaking_join, hfind, if_neg hname']

/-- C10 witness: with Ada already waiting, a second join by "Ada"
creates the room `["Ada", "Ada"]`. -/
theorem join_self_pairing_witness :
    findWaiting [⟨0, "Ada", "waiting", none, 0⟩] =
      some ⟨0, "Ada", "waiting", none, 0⟩ ∧
    pyStrip "Ada" = "Ada" ∧
    ((matchmaking_join ⟨"Ada", "ZZ9PLU", 0, 4⟩
        ⟨[], [], [], [⟨0, "Ada", "waiting", none, 0⟩], 1⟩).1 =
      .ok (.paired "ZZ9PLU") ∧
     ∃ r ∈ (matchmaking_join ⟨"Ada", "ZZ9PLU", 0, 4⟩
        ⟨[], [], [], [⟨0, "Ada", "waiting", none, 0⟩], 1⟩).2.room,
       r.room_id = "ZZ9PLU" ∧ r.participants = ["Ada", "Ada"]) :=
  ⟨by decide, by decide,
   join_self_pairing ⟨"Ada", "ZZ9PLU", 0, 4⟩
     ⟨[], [], [], [⟨0, "Ada", "waiting", none, 0⟩], 1⟩
     ⟨0, "Ada", "waiting", none, 0⟩ (by decide) (by decide) (by decide)⟩

/-- C1: the pairing step of `matchmaking_join` is find-then-delete with
no atomic claim, so the single-pairing contract fails: starting from a
store whose queue holds exactly the one waiting entry "Alice", the
interleaving in which both concurrent joins ("Bob" and "Carol") run
their `find_one` before either runs its `delete_one` ends with two
Rooms created, `["Alice", "Bob"]` and `["Alice", "Carol"]`, both
consuming that single WaitingEntry. -/
theorem join_race_creates_two_rooms_from_one_entry :
    (runSched [0, 1, 0, 0, 0, 1, 1, 1]
        [⟨⟨"Bob", "R1QQQQ", 0, 1⟩, .start⟩, ⟨⟨"Carol", "R2QQQQ", 0, 2⟩, .start⟩]
        ⟨[], [], [], [⟨0, "Alice", "waiting", none, 0⟩], 1⟩).2.room.map
      Room.participants = [["Alice", "Bob"], ["Alice", "Carol"]] ∧
    (⟨[], [], [], [⟨0, "Alice", "waiting", none, 0⟩], 1⟩ : DB).matchCol.length
      = 1 := by
  decide

/-- C2 counterexample: room ids are drawn at random with no uniqueness
check, so two distinct Rooms can be created with equal `room_id`: two
sequential pairings whose id draws collide both produce rooms with id
"AAAAAA". -/
theorem room_id_not_unique_counterexample :
    (matchmaking_join ⟨"Carol", "AAAAAA", 0, 2⟩
        (matchmaking_join ⟨"Bob", "AAAAAA", 0, 1⟩
          ⟨[], [], [], [⟨0, "Alice", "waiting", none, 0⟩,
                        ⟨1, "Amy", "waiting", none, 0⟩], 2⟩).2).2.room.map
      (fun r => (r.room_id, r.participants)) =
      [("AAAAAA", ["Alice", "Bob"]), ("AAAAAA", ["Amy", "Carol"])] := by
  decide

theorem joinStep_participants (c : JoinCtx) (ph : JoinPhase) (db : DB)
    (h : ∀ r ∈ db.room, r.participants.length = 2) :
    ∀ r ∈ (joinStep c ph db).2.room, r.participants.length = 2 := by
  cases ph with
  | start =>
      intro r hr
      apply h
      revert hr
      simp only [joinStep]
      split
      · exact fun hr => hr
      · split <;> exact fun hr => hr
  | insertWaiting => exact h
  | createRoom other =>
      intro r hr
      simp only [joinStep, List.mem_append] at hr
      rcases hr with hr | hr
      · exact h r hr
      · simp only [List.mem_singleton] at hr
        subst hr
        rfl
  | deleteEntry other => exact h
  | createMsg => exact h
  | done res => exact h

theorem schedStep_participants (ts : List Thread) (db : DB) (i : Nat)
    (h : ∀ r ∈ db.room, r.participants.length = 2) :
    ∀ r ∈ (schedStep ts db i).2.room, r.participants.length = 2 := by
  unfold schedStep
  cases hts : ts.get? i with
  | none => exact h
  | some t => exact joinStep_participants t.ctx t.ph db h

theorem runSched_participants (sched : List Nat) (ts : List Thread) (db : DB)
    (h : ∀ r ∈ db.room, r.participants.length = 2) :
    ∀ r ∈ (runSched sched ts db).2.room, r.participants.length = 2 := by
  induction sched generalizing ts db with
  | nil => exact h
  | cons i rest ih =>
      exact ih (schedStep ts db i).1 (schedStep ts db i).2
        (schedStep_participants ts db i h)

theorem updateFirstRoom_participants (rs : List Room) (rid content : String) :
    ∀ r ∈ (updateFirstRoom rs rid content).1,
      ∃ r0 ∈ rs, r0.participants = r.participants := by
  induction rs with
  | nil => simp [updateFirstRoom]
  | cons a rest ih =>
      by_cases ha : a.room_id == rid
      · intro r hr
        simp only [updateFirstRoom, if_pos ha, List.mem_cons] at hr
        rcases hr with hr | hr
        · exact ⟨a, List.mem_cons_self _ _, by rw [hr]⟩
        · exact ⟨r, List.mem_cons_of_mem _ hr, rfl⟩
      · intro r hr
        simp only [updateFirstRoom, if_neg ha, List.mem_cons] at hr
        rcases hr with hr | hr
        · exact ⟨a, List.mem_cons_self _ _, by rw [hr]⟩
        · obtain ⟨r0, hr0, he⟩ := ih r hr
          exact ⟨r0, List.mem_cons_of_mem _ hr0, he⟩

/-- C2 (amended): under every schedule of concurrent joins, every Room
in the store keeps a participants list of length exactly 2 (each room
is created by the pairing branch with exactly the two names
`[other.name, name]`), and `update_editor` preserves this; the
`room_id` uniqueness half of the claim fails (ids are random draws with
no uniqueness check — see the counterexample). -/
theorem room_always_two_participants (sched : List Nat) (ts : List Thread)
    (db : DB) (h : ∀ r ∈ db.room, r.participants.length = 2) :
    (∀ r ∈ (runSched sched ts db).2.room, r.participants.length = 2) ∧
    (∀ rid content d d2, update_editor rid content d = .ok d2 →
      (∀ r ∈ d.room, r.participants.length = 2) →
      ∀ r ∈ d2.room, r.participants.length = 2) := by
  refine ⟨runSched_participants sched ts db h, ?_⟩
  intro rid content d d2 hup hd r hr
  have hroom : d2.room = (updateFirstRoom d.room rid content).1 := by
    unfold update_editor at hup
    by_cases hz : (updateFirstRoom d.room rid content).2 = 0
    · simp [hz] at hup
    · simp only [hz, if_false, Except.ok.injEq] at hup
      rw [← hup]
  rw [hroom] at hr
  obtain ⟨r0, hr0, he⟩ := updateFirstRoom_participants d.room rid content r hr
  rw [← he]
  exact hd r0 hr0

/-- C2 witness: the race schedule of the C1 analysis starts from a
store with no rooms and ends with only two-participant rooms. -/
theorem room_always_two_participants_witness :
    (∀ r ∈ (runSched [0, 1, 0, 0, 0, 1, 1, 1]
        [⟨⟨"Bob", "R1QQQQ", 0, 1⟩, .start⟩, ⟨⟨"Carol", "R2QQQQ", 0, 2⟩, .start⟩]
        ⟨[], [], [], [⟨0, "Alice", "waiting", none, 0⟩], 1⟩).2.room,
       r.participants.length = 2) ∧
    (∀ rid content d d2, update_editor rid content d = .ok d2 →
      (∀ r ∈ d.room, r.participants.length = 2) →
      ∀ r ∈ d2.room, r.participants.length = 2) :=
  room_always_two_participants [0, 1, 0, 0, 0, 1, 1, 1]
    [⟨⟨"Bob", "R1QQQQ", 0, 1⟩, .start⟩, ⟨⟨"Carol", "R2QQQQ", 0, 2⟩, .start⟩]
    ⟨[], [], [], [⟨0, "Alice", "waiting", none, 0⟩], 1⟩ (by simp)

/-- C7: seeding is idempotent: on a non-empty catalog `seed_questions`
inserts nothing and reports `seeded = false`; on an empty catalog it
inserts the three samples and reports `seeded = true` with count 3; and
a second call right after any first call is always the inserting-nothing
no-op. -/
theorem seed_questions_idempotent (db : DB) :
    (db.question ≠ [] → seed_questions db = ((false, none), db)) ∧
    (db.question = [] →
      seed_questions db =
        ((true, some 3), { db with question := db.question ++ seedSamples })) ∧
    seed_questions (seed_questions db).2 = ((false, none), (seed_questions db).2) := by
  refine ⟨?_, ?_, ?_⟩
  · intro h
    have hlen : 0 < db.question.length := List.length_pos.mpr h
    simp [seed_questions, hlen]
  · intro h
    simp [seed_questions, h, seedSamples]
  · by_cases h : 0 < db.question.length
    · simp [seed_questions, h]
    · have h0 : db.question = [] := by
        cases hq : db.question with
        | nil => rfl
        | cons a l => rw [hq] at h; simp at h
      simp [seed_questions, h0, seedSamples]

/-- C7 witness: seeding an empty catalog inserts the three samples and
returns `(true, 3)`. -/
theorem seed_questions_idempotent_witness :
    seed_questions ⟨[], [], [], [], 0⟩ =
      ((true, some 3), ⟨seedSamples, [], [], [], 0⟩) :=
  (seed_questions_idempotent ⟨[], [], [], [], 0⟩).2.1 rfl

/-- C5: for every room and limit, `get_messages` returns at most
`limit` messages (50 being the HTTP-layer default), non-decreasing in
`created_at`; and for a room fresh out of pairing (its id tagged on no
earlier message), the auto-generated "Match found!" system message is
the first — indeed only — message returned. -/
theorem list_messages_sorted_and_first (rid : String) (limit : Nat)
    (db : DB) (c : JoinCtx) (other : MatchDoc) :
    (get_messages rid limit db).length ≤ limit ∧
    List.Sorted msgLE (get_messages rid limit db) ∧
    (pyStrip c.name ≠ "" → findWaiting db.matchCol = some other →
      (∀ m ∈ db.message, m.room_id ≠ c.roomId) → 1 ≤ limit →
      get_messages c.roomId limit (matchmaking_join c db).2 =
        [⟨c.roomId, "system", "Match found!", "system", c.now⟩]) := by
  refine ⟨List.length_take_le _ _, ?_, ?_⟩
  · exact List.Pairwise.sublist (List.take_sublist _ _)
      (List.sorted_insertionSort msgLE _)
  · intro hname hfind hmsg hlim
    have hdb : (matchmaking_join c db).2.message =
        db.message ++ [⟨c.roomId, "system", "Match found!", "system", c.now⟩] := by
      simp [matchmaking_join, hfind, if_neg hname]
    have hfil : db.message.filter (fun m => m.room_id == c.roomId) = [] := by
      rw [List.filter_eq_nil_iff]
      intro m hm
      simpa using hmsg m hm
    rw [get_messages, hdb, List.filter_append, hfil]
    cases limit with
    | zero => omega
    | succ n => simp [List.insertionSort, List.orderedInsert]

/-- C5 witness: on a concrete store, a 2-message room lists within the
default limit in timestamp order, and the freshly paired room of a
concrete join lists exactly its system message. -/
theorem list_messages_sorted_and_first_witness :
    (get_messages "R0XYZW" 50
        ⟨[], [], [⟨"R0XYZW", "a", "hi", "chat", 5⟩,
                  ⟨"R0XYZW", "b", "yo", "chat", 3⟩], [], 0⟩).length ≤ 50 ∧
    List.Sorted msgLE (get_messages "R0XYZW" 50
        ⟨[], [], [⟨"R0XYZW", "a", "hi", "chat", 5⟩,
                  ⟨"R0XYZW", "b", "yo", "chat", 3⟩], [], 0⟩) ∧
    get_messages "NEWRM1" 50
        (matchmaking_join ⟨"Bob", "NEWRM1", 0, 9⟩
          ⟨[], [], [⟨"R0XYZW", "a", "hi", "chat", 5⟩,
                    ⟨"R0XYZW", "b", "yo", "chat", 3⟩],
           [⟨0, "Alice", "waiting", none, 0⟩], 1⟩).2 =
      [⟨"NEWRM1", "system", "Match found!", "system", 9⟩] :=
  ⟨(list_messages_sorted_and_first "R0XYZW" 50
      ⟨[], [], [⟨"R0XYZW", "a", "hi", "chat", 5⟩,
                ⟨"R0XYZW", "b", "yo", "chat", 3⟩], [], 0⟩
      ⟨"Bob", "NEWRM1", 0, 9⟩ ⟨0, "Alice", "waiting", none, 0⟩).1,
   (list_messages_sorted_and_first "R0XYZW" 50
      ⟨[], [], [⟨"R0XYZW", "a", "hi", "chat", 5⟩,
                ⟨"R0XYZW", "b", "yo", "chat", 3⟩], [], 0⟩
      ⟨"Bob", "NEWRM1", 0, 9⟩ ⟨0, "Alice", "waiting", none, 0⟩).2.1,
   (list_messages_sorted_and_first "NEWRM1" 50
      ⟨[], [], [⟨"R0XYZW", "a", "hi", "chat", 5⟩,
                ⟨"R0XYZW", "b", "yo", "chat", 3⟩],
       [⟨0, "Alice", "waiting", none, 0⟩], 1⟩
      ⟨"Bob", "NEWRM1", 0, 9⟩ ⟨0, "Alice", "waiting", none, 0⟩).2.2
     (by decide) (by decide) (by decide) (by decide)⟩

theorem updateFirstRoom_found {rs : List Room} {rid : String} {r0 : Room}
    (h : findRoom rs rid = some r0) (content : String) :
    (updateFirstRoom rs rid content).2 = 1 ∧
    findRoom (updateFirstRoom rs rid content).1 rid =
      some { r0 with editor_content := content } := by
  induction rs with
  | nil => simp [findRoom] at h
  | cons a rest ih =>
      by_cases ha : a.room_id == rid
      · rw [findRoom, List.find?_cons] at h
        rw [ha] at h
        cases h
        constructor
        · simp [updateFirstRoom, ha]
        · simp only [updateFirstRoom, if_pos ha]
          rw [findRoom, List.find?_cons]
          simp only [ha]
      · rw [findRoom, List.find?_cons] at h
        rw [Bool.of_not_eq_true ha] at h
        obtain ⟨h1, h2⟩ := ih h
        constructor
        · simpa [updateFirstRoom, ha] using h1
        · simp only [updateFirstRoom, if_neg ha]
          rw [findRoom, List.find?_cons]
          rw [Bool.of_not_eq_true ha]
          exact h2

/-- C8: editor updates are last-write-wins: on a store holding a room
with the given id, running `update_editor` with `c1` and then with `c2`
succeeds, and the room then found under that id carries
`editor_content = c2`, whatever `c1` was. -/
theorem editor_last_write_wins (db : DB) (rid c1 c2 : String) (r0 : Room)
    (h : findRoom db.room rid = some r0) :
    Except.map (fun d => findRoom d.room rid)
        (Except.bind (update_editor rid c1 db) (update_editor rid c2)) =
      .ok (some { r0 with editor_content := c2 }) := by
  obtain ⟨m1, f1⟩ := updateFirstRoom_found h c1
  obtain ⟨m2, f2⟩ := updateFirstRoom_found f1 c2
  simp only [update_editor, m1, m2, if_neg (by omega : ¬(1 : Nat) = 0),
    Except.bind, Except.map]
  rw [f2]

/-- C8 witness: a concrete room's editor holds "second" after being set
to "first" and then "second". -/
theorem editor_last_write_wins_witness :
    findRoom [⟨"ROOMAA", ["Alice", "Bob"], none, "", some 1⟩] "ROOMAA" =
      some ⟨"ROOMAA", ["Alice", "Bob"], none, "", some 1⟩ ∧
    Except.map (fun d => findRoom d.room "ROOMAA")
        (Except.bind
          (update_editor "ROOMAA" "first"
            ⟨[], [⟨"ROOMAA", ["Alice", "Bob"], none, "", some 1⟩], [], [], 0⟩)
          (update_editor "ROOMAA" "second")) =
      .ok (some ⟨"ROOMAA", ["Alice", "Bob"], none, "second", some 1⟩) :=
  ⟨by decide,
   editor_last_write_wins
     ⟨[], [⟨"ROOMAA", ["Alice", "Bob"], none, "", some 1⟩], [], [], 0⟩
     "ROOMAA" "first" "second"
     ⟨"ROOMAA", ["Alice", "Bob"], none, "", some 1⟩ (by decide)⟩

theorem updateFirstRoom_frame (rs : List Room) (rid content : String) :
    ((updateFirstRoom rs rid content).1).length = rs.length ∧
    ∀ i, (((updateFirstRoom rs rid content).1).get? i).map eraseEditor =
      (rs.get? i).map eraseEditor := by
  induction rs with
  | nil => simp [updateFirstRoom]
  | cons a rest ih =>
      by_cases ha : a.room_id == rid
      · refine ⟨by simp [updateFirstRoom, ha], ?_⟩
        intro i
        cases i with
        | zero => simp [updateFirstRoom, ha, eraseEditor]
        | succ n => simp [updateFirstRoom, ha]
      · refine ⟨by simp [updateFirstRoom, ha, ih.1], ?_⟩
        intro i
        cases i with
        | zero => simp [updateFirstRoom, ha]
        | succ n => simpa [updateFirstRoom, ha] using ih.2 n

/-- C9: `update_editor` on an existing room touches only that room's
`editor_content`: the question, message and waiting-queue collections
are untouched (so the message log is untouched and no WaitingEntry
changes), the room collection keeps its length (no Room created or
deleted) and every room is unchanged up to its editor text; moreover a
Room is never otherwise mutated after creation — `send_message` leaves
the room collection untouched, `matchmaking_join` only ever appends to
it, and `seed_questions` leaves it untouched. -/
theorem update_editor_frame (db : DB) (rid content : String) (r0 : Room)
    (h : findRoom db.room rid = some r0) :
    update_editor rid content db =
      .ok { db with room := (updateFirstRoom db.room rid content).1 } ∧
    ((updateFirstRoom db.room rid content).1).length = db.room.length ∧
    (∀ i, (((updateFirstRoom db.room rid content).1).get? i).map eraseEditor =
      (db.room.get? i).map eraseEditor) ∧
    (∀ rid2 s ct now d d2, send_message rid2 s ct now d = .ok d2 →
      d2.room = d.room) ∧
    (∀ c d, ∃ t, (matchmaking_join c d).2.room = d.room ++ t) ∧
    (∀ d, ((seed_questions d).2).room = d.room) := by
  obtain ⟨m1, _⟩ := updateFirstRoom_found h content
  refine ⟨?_, (updateFirstRoom_frame db.room rid content).1,
          (updateFirstRoom_frame db.room rid content).2, ?_, ?_, ?_⟩
  · simp [update_editor, m1]
  · intro rid2 s ct now d d2 hsend
    unfold send_message at hsend
    cases hf : findRoom d.room rid2 with
    | none => rw [hf] at hsend; cases hsend
    | some r =>
        rw [hf] at hsend
        cases hsend
        rfl
  · intro c d
    by_cases hn : pyStrip c.name = ""
    · exact ⟨[], by simp [matchmaking_join, hn]⟩
    · cases hf : findWaiting d.matchCol with
      | none => exact ⟨[], by simp [matchmaking_join, hn, hf]⟩
      | some o =>
          exact ⟨[{ room_id := c.roomId,
                    participants := [o.name, pyStrip c.name],
                    question_slug :=
                      (sampleQuestion d.question c.qpick).map (·.slug),
                    editor_content := "", created_at := some c.now }],
                 by simp [matchmaking_join, hn, hf]⟩
  · intro d
    unfold seed_questions
    by_cases hq : 0 < d.question.length
    · simp [hq]
    · simp [hq]

/-- C9 witness: updating a concrete room's editor rewrites only its
editor text. -/
theorem update_editor_frame_witness :
    update_editor "ROOMBB" "print(1)"
        ⟨[], [⟨"ROOMBB", ["Ann", "Ben"], some "two-sum", "", some 3⟩],
         [⟨"ROOMBB", "system", "Match found!", "system", 3⟩], [], 7⟩ =
      .ok ⟨[], [⟨"ROOMBB", ["Ann", "Ben"], some "two-sum", "print(1)", some 3⟩],
           [⟨"ROOMBB", "system", "Match found!", "system", 3⟩], [], 7⟩ :=
  (update_editor_frame
    ⟨[], [⟨"ROOMBB", ["Ann", "Ben"], some "two-sum", "", some 3⟩],
     [⟨"ROOMBB", "system", "Match found!", "system", 3⟩], [], 7⟩
    "ROOMBB" "print(1)"
    ⟨"ROOMBB", ["Ann", "Ben"], some "two-sum", "", some 3⟩ (by decide)).1

end Spec2Proof
